import Mathlib

/-!
# jump-cli: the bookmark store, its validation rules and its table formatter

A shallow embedding of `src/lib/utils.js`, `src/lib/storage.js`,
`src/lib/bookmarks.js` and the `list` command of `src/lib/commands.js`.

Modelling decisions, all taken from the JavaScript source:

* The bookmarks object is the value `JSON.parse` returns: an ordinary object
  whose prototype is `Object.prototype`.  Its own properties are kept as a list
  of (alias, path) pairs in the order `Object.keys` reports them.  A property
  read `bookmarks[alias]` first looks at the own properties and then at the
  members of `Object.prototype`, as every JavaScript property read does.
* The source tests `bookmarks[alias]` for truthiness; a string is truthy
  exactly when it is not empty, a function or an object always is.
* The bookmarks file holds `JSON.stringify(bookmarks, null, 2)`; since
  `JSON.parse` inverts it on flat objects with string values, the file content
  is kept as the object itself (or as absent, or as text that does not parse).
  Files that parse to anything else than a flat object of strings are outside
  the data model of the spec and outside this model.
* The operating system (path resolution, existence probes, `stat`, whether a
  write fails) is a parameter `Env`; it is never inspected by the proofs.
* The call `fs.writeFileSync(path, data)` overwrites in place: it opens the file
  with flag `w`, which empties it, and then writes.  When it throws before the
  open the file is as it was; when it throws after the open (a full disk) the
  file is left empty or partial and no longer parses.  `Env` says which.
* Strings are sequences of Unicode scalar values; `length` counts UTF-16 code
  units as JavaScript does.

The data model of the spec asks every stored path to be absolute; the general
statements below only need the weaker fact that a stored path is not the empty
string, and say so where they use it.
-/

set_option maxRecDepth 8000

namespace Jump

/-! ## JavaScript values and objects -/

/-- The values a property read on the bookmarks object can produce. -/
inductive JsValue where
  | undefined
  | str (s : String)
  | inherited (name : String)
  deriving DecidableEq, Repr

/-- An ordinary object with string values: own properties in key order. -/
abbrev Obj := List (String × String)

/-- The property names every ordinary object inherits from `Object.prototype`. -/
def objectPrototypeNames : List String :=
  ["constructor", "__defineGetter__", "__defineSetter__", "hasOwnProperty",
   "__lookupGetter__", "__lookupSetter__", "isPrototypeOf", "propertyIsEnumerable",
   "toString", "valueOf", "__proto__", "toLocaleString"]

/-- JavaScript truthiness (`if (v)`, `!v`). -/
def JsValue.truthy : JsValue → Bool
  | .undefined => false
  | .str s => decide (s ≠ "")
  | .inherited _ => true

/-- Conversion to string inside a template literal. -/
def JsValue.toTemplate : JsValue → String
  | .undefined => "undefined"
  | .str s => s
  | .inherited name =>
    if name = "__proto__" then "[object Object]"
    else if name = "constructor" then "function Object() \x7b [native code] \x7d"
    else "function " ++ name ++ "() \x7b [native code] \x7d"

/-- The read `bookmarks[alias]`: own property first, then the prototype. -/
def getProp (o : Obj) (key : String) : JsValue :=
  match List.lookup key o with
  | some s => .str s
  | none => if key ∈ objectPrototypeNames then .inherited key else .undefined

/-- The number a list of decimal digits denotes. -/
def decimalValue (digits : List Char) : Nat :=
  digits.foldl (fun acc c => 10 * acc + (c.toNat - 48)) 0

/-- The array index a property key denotes, if it is one: a canonical decimal
numeral (no leading zero, except for zero itself) below `2^32 - 1`.  Such keys
are enumerated first, in ascending order, before all other keys. -/
def arrayIndex? (key : String) : Option Nat :=
  if key.data.all Char.isDigit ∧ key.data ≠ [] ∧
      (key.data.head? ≠ some '0' ∨ key.data.length = 1) ∧
      decimalValue key.data < 2 ^ 32 - 1 then
    some (decimalValue key.data)
  else none

/-- Adding a new own property `key` at its place in the key order. -/
def insertNew (o : Obj) (key value : String) : Obj :=
  match arrayIndex? key with
  | some n =>
    let before := fun (e : String × String) =>
      match arrayIndex? e.1 with
      | some m => decide (m < n)
      | none => false
    o.takeWhile before ++ (key, value) :: o.dropWhile before
  | none => o ++ [(key, value)]

/-- Replacing the value of the own property `key`. -/
def replaceOwn (o : Obj) (key value : String) : Obj :=
  o.map (fun e => if e.1 = key then (e.1, value) else e)

/-- The assignment `bookmarks[alias] = value` for a string value.  An own
property is overwritten; `__proto__` that is not own reaches the setter of
`Object.prototype`, which ignores a string; any other key becomes a new own
property. -/
def setProp (o : Obj) (key value : String) : Obj :=
  match List.lookup key o with
  | some _ => replaceOwn o key value
  | none => if key = "__proto__" then o else insertNew o key value

/-- The statement `delete bookmarks[alias]`: own properties only. -/
def deleteProp (o : Obj) (key : String) : Obj :=
  o.filter (fun e => e.1 ≠ key)

/-- The call `Object.keys(bookmarks)`. -/
def objectKeys (o : Obj) : List String := o.map Prod.fst

/-- The call `Object.values(bookmarks)`. -/
def objectValues (o : Obj) : List String := o.map Prod.snd

/-! ## Strings -/

/-- The `length` of a JavaScript string: UTF-16 code units. -/
def jsLength (s : String) : Nat :=
  (s.data.map (fun c => if c.val < 0x10000 then 1 else 2)).sum

/-- The call `s.padEnd(targetLength)`: filled with spaces on the right. -/
def padEnd (s : String) (targetLength : Nat) : String :=
  s ++ String.mk (List.replicate (targetLength - jsLength s) ' ')

/-- The call `s.repeat(count)`. -/
def strRepeat (s : String) (count : Nat) : String :=
  String.join (List.replicate count s)

/-- The call `Math.max(...xs)` on lengths. -/
def mathMax (xs : List Nat) : Nat := xs.foldl max 0

/-- The call `s.includes(t)`: `t` occurs in `s` as a contiguous piece. -/
def includes (s t : String) : Prop := t.data <:+: s.data

instance (s t : String) : Decidable (includes s t) := by
  unfold includes; infer_instance

/-! ## The runtime environment -/

/-- What `fs.statSync` reports about a path. -/
structure Stats where
  isDirectory : Bool
  isFile : Bool
  deriving DecidableEq, Repr

/-- The process environment and the operating system as the code sees them. -/
structure Env where
  /-- The value of `os.homedir()` -/
  homedir : String
  /-- The variables of `process.env` -/
  vars : String → Option String
  /-- The call `path.join(a, b)` -/
  pathJoin : String → String → String
  /-- The call `path.resolve(p)` -/
  pathResolve : String → String
  /-- The call `fs.existsSync(p)` -/
  existsSync : String → Bool
  /-- The call `fs.statSync(p)`; `none` when it throws -/
  statSync : String → Option Stats
  /-- The message of the error `fs.writeFileSync(path, data)` throws, if it does -/
  writeFileError : String → Obj → Option String
  /-- Whether a throwing `fs.writeFileSync(path, data)` had already opened, and
  thereby emptied, the file -/
  failedWriteTruncates : String → Obj → Bool

/-- What a bookmarks file holds. -/
inductive FileContent where
  | absent
  | malformed (error : String)
  | json (o : Obj)
  deriving DecidableEq, Repr

/-- The mutable world: bookmark files by path, the calls of `fs.writeFileSync`
made so far (oldest first), and the two console streams. -/
structure World where
  files : String → FileContent
  writes : List (String × Obj)
  stderr : List String
  stdout : List String

/-! ## `Utils` (src/lib/utils.js) -/

namespace Utils

/-- The method `Utils.pathExists`: `fs.existsSync` rejects anything but a path. -/
def pathExists (env : Env) (inputPath : JsValue) : Bool :=
  match inputPath with
  | .str p => env.existsSync p
  | _ => false

/-- The method `Utils.resolvePath`. -/
def resolvePath (env : Env) (inputPath : String) : String :=
  env.pathResolve inputPath

/-- The method `Utils.isDirectory`: false when `fs.statSync` throws. -/
def isDirectory (env : Env) (inputPath : JsValue) : Bool :=
  match inputPath with
  | .str p =>
    match env.statSync p with
    | some st => st.isDirectory
    | none => false
  | _ => false

/-- The method `Utils.isFile`: false when `fs.statSync` throws. -/
def isFile (env : Env) (inputPath : JsValue) : Bool :=
  match inputPath with
  | .str p =>
    match env.statSync p with
    | some st => st.isFile
    | none => false
  | _ => false

/-- One item of a regular-expression character class. -/
inductive ClassItem where
  | single (c : Char)
  | range (lo hi : Char)

/-- Whether a character is matched by a class item. -/
def ClassItem.test : ClassItem → Char → Bool
  | .single c, x => x == c
  | .range lo hi, x => decide (lo.val ≤ x.val) && decide (x.val ≤ hi.val)

/-- The class `[a-zA-Z0-9_-]`. -/
def aliasClass : List ClassItem :=
  [.range 'a' 'z', .range 'A' 'Z', .range '0' '9', .single '_', .single '-']

/-- Matching `^[...]+$` from the first character on: the class must match here,
and then either the input ends or the repetition goes on. -/
def matchPlusToEnd (cls : List ClassItem) : List Char → Bool
  | [] => false
  | c :: rest => cls.any (fun item => item.test c) && (rest.isEmpty || matchPlusToEnd cls rest)

/-- The call `aliasRegex.test(alias)` for `/^[a-zA-Z0-9_-]+$/`. -/
def aliasRegexTest (aliasName : String) : Bool := matchPlusToEnd aliasClass aliasName.data

/-- The method `Utils.isValidAlias`. -/
def isValidAlias (aliasName : String) : Bool :=
  aliasRegexTest aliasName && decide (jsLength aliasName > 0)

/-- The method `Utils.formatBookmarksTable`.  Every alias comes from `Object.keys`, so the
read `bookmarks[alias]` yields the stored string. -/
def formatBookmarksTable (bookmarks : Obj) : String :=
  let aliases := objectKeys bookmarks
  if aliases.length = 0 then "No bookmarks found."
  else
    let maxAliasLength := mathMax (aliases.map jsLength ++ [jsLength "ALIAS"])
    let maxPathLength := mathMax ((objectValues bookmarks).map jsLength ++ [jsLength "PATH"])
    let header := padEnd "ALIAS" maxAliasLength ++ " | " ++ padEnd "PATH" maxPathLength
    let separator := strRepeat "-" (jsLength header)
    let rows := aliases.map (fun aliasName =>
      padEnd aliasName maxAliasLength ++ " | " ++
        padEnd (getProp bookmarks aliasName).toTemplate maxPathLength)
    String.intercalate "\n" (header :: separator :: rows)

end Utils

/-! ## `Storage` (src/lib/storage.js) -/

/-- A `Storage` instance. -/
structure Storage where
  filePath : String
  deriving DecidableEq, Repr

namespace Storage

/-- The constructor: `path.join(os.homedir(), '.jump.json')`. -/
def new (env : Env) : Storage :=
  { filePath := env.pathJoin env.homedir ".jump.json" }

/-- The method `Storage.read`: an absent file and a file that does not parse both give the
empty object; the latter is reported on the error stream. -/
def read (st : Storage) (w : World) : Obj × World :=
  match w.files st.filePath with
  | .absent => ([], w)
  | .json o => (o, w)
  | .malformed e =>
    ([], { w with stderr := w.stderr ++ ["Error reading bookmarks file: " ++ e] })

/-- The method `Storage.write`: returns the message of the error it rethrows, if
any.  A write that fails before the file is opened leaves it as it was; one
that fails after the open leaves a text that `JSON.parse` rejects. -/
def write (st : Storage) (env : Env) (w : World) (bookmarks : Obj) : Option String × World :=
  let w1 : World := { w with writes := w.writes ++ [(st.filePath, bookmarks)] }
  match env.writeFileError st.filePath bookmarks with
  | none =>
    (none, { w1 with files := fun p => if p = st.filePath then .json bookmarks else w.files p })
  | some msg =>
    (some msg,
     { w1 with
       stderr := w1.stderr ++ ["Error writing bookmarks file: " ++ msg]
       files := fun p =>
         if p = st.filePath ∧ env.failedWriteTruncates st.filePath bookmarks = true then
           .malformed "Unexpected end of JSON input"
         else w.files p })

/-- The method `Storage.getFilePath`. -/
def getFilePath (st : Storage) : String := st.filePath

end Storage

/-! ## `Bookmarks` (src/lib/bookmarks.js) -/

/-- The result object the service methods return; a key that the source does
not set is `none`. -/
structure Result where
  success : Bool
  message : Option String
  path : Option JsValue
  isDirectory : Option Bool
  isFile : Option Bool
  deriving DecidableEq, Repr

/-- The object `{ success: false, message }`. -/
def Result.failure (message : String) : Result :=
  { success := false, message := some message, path := none, isDirectory := none, isFile := none }

/-- The object `{ success: true, message }`. -/
def Result.done (message : String) : Result :=
  { success := true, message := some message, path := none, isDirectory := none, isFile := none }

/-- A `Bookmarks` instance. -/
structure Bookmarks where
  storage : Storage
  deriving DecidableEq, Repr

namespace Bookmarks

/-- The constructor. -/
def new (env : Env) : Bookmarks := { storage := Storage.new env }

/-- The method `Bookmarks.create`. -/
def create (b : Bookmarks) (env : Env) (w : World) (inputPath aliasName : String) : Result × World :=
  if !Utils.isValidAlias aliasName then
    (Result.failure
      "Invalid alias format. Use only alphanumeric characters, underscores, and hyphens.", w)
  else
    let resolvedPath := Utils.resolvePath env inputPath
    if !Utils.pathExists env (.str resolvedPath) then
      (Result.failure ("Path does not exist: " ++ resolvedPath), w)
    else
      let (bookmarks, w1) := b.storage.read w
      if (getProp bookmarks aliasName).truthy then
        (Result.failure ("Alias \x27" ++ aliasName ++ "\x27 already exists. Use \x27jump remove "
          ++ aliasName ++ "\x27 to remove it first."), w1)
      else
        let bookmarks2 := setProp bookmarks aliasName resolvedPath
        match b.storage.write env w1 bookmarks2 with
        | (none, w2) =>
          (Result.done ("Bookmark \x27" ++ aliasName ++ "\x27 created for \x27" ++ resolvedPath
            ++ "\x27"), w2)
        | (some msg, w2) => (Result.failure ("Failed to save bookmark: " ++ msg), w2)

/-- The method `Bookmarks.list`. -/
def list (b : Bookmarks) (w : World) : Obj × World := b.storage.read w

/-- The method `Bookmarks.get`. -/
def get (b : Bookmarks) (env : Env) (w : World) (aliasName : String) : Result × World :=
  let (bookmarks, w1) := b.storage.read w
  if !(getProp bookmarks aliasName).truthy then
    (Result.failure ("Bookmark \x27" ++ aliasName ++ "\x27 not found"), w1)
  else
    let bookmarkPath := getProp bookmarks aliasName
    if !Utils.pathExists env bookmarkPath then
      (Result.failure ("Bookmarked path no longer exists: " ++ bookmarkPath.toTemplate), w1)
    else
      ({ success := true, message := none, path := some bookmarkPath,
         isDirectory := some (Utils.isDirectory env bookmarkPath),
         isFile := some (Utils.isFile env bookmarkPath) }, w1)

/-- The method `Bookmarks.remove`. -/
def remove (b : Bookmarks) (env : Env) (w : World) (aliasName : String) : Result × World :=
  let (bookmarks, w1) := b.storage.read w
  if !(getProp bookmarks aliasName).truthy then
    (Result.failure ("Bookmark \x27" ++ aliasName ++ "\x27 not found"), w1)
  else
    let removedPath := getProp bookmarks aliasName
    let bookmarks2 := deleteProp bookmarks aliasName
    match b.storage.write env w1 bookmarks2 with
    | (none, w2) =>
      (Result.done ("Bookmark \x27" ++ aliasName ++ "\x27 removed (was pointing to \x27"
        ++ removedPath.toTemplate ++ "\x27)"), w2)
    | (some msg, w2) => (Result.failure ("Failed to remove bookmark: " ++ msg), w2)

/-- The method `Bookmarks.hasBookmarks`. -/
def hasBookmarks (b : Bookmarks) (w : World) : Bool × World :=
  let (bookmarks, w1) := b.storage.read w
  (decide ((objectKeys bookmarks).length > 0), w1)

/-- The method `Bookmarks.count`. -/
def count (b : Bookmarks) (w : World) : Nat × World :=
  let (bookmarks, w1) := b.storage.read w
  ((objectKeys bookmarks).length, w1)

end Bookmarks

/-! ## `Commands.list` (src/lib/commands.js) -/

namespace Commands

/-- The `list` command: prints the formatted table. -/
def list (b : Bookmarks) (w : World) : World :=
  let (bookmarks, w1) := b.list w
  let formatted := Utils.formatBookmarksTable bookmarks
  { w1 with stdout := w1.stdout ++ [formatted] }

end Commands

/-- The collection an operation finds persisted: what `Storage.read` returns. -/
def persisted (b : Bookmarks) (w : World) : Obj := (b.storage.read w).1

/-! ## The spec side of alias validity -/

/-- The character class of the spec: an ASCII letter, an ASCII digit, an
underscore or a hyphen. -/
def specAliasChar (c : Char) : Prop :=
  c.isAlpha = true ∨ c.isDigit = true ∨ c = '_' ∨ c = '-'

/-! ## Concrete environments used by the closed examples -/

/-- A small machine: home `/home/u`, two directories and one file exist, paths
are already absolute, writes succeed, and the test override variable is set. -/
def demoEnv : Env where
  homedir := "/home/u"
  vars := fun v => if v = "JUMP_BOOKMARKS_PATH" then some "/tmp/jump-test.json" else none
  pathJoin := fun a b => a ++ "/" ++ b
  pathResolve := fun p => p
  existsSync := fun p => p = "/tmp/dir" || p = "/tmp/dir2" || p = "/tmp/file.txt"
  statSync := fun p =>
    if p = "/tmp/dir" || p = "/tmp/dir2" then some { isDirectory := true, isFile := false }
    else if p = "/tmp/file.txt" then some { isDirectory := false, isFile := true }
    else none
  writeFileError := fun _ _ => none
  failedWriteTruncates := fun _ _ => false

/-- The demo machine with a bookmarks file that cannot be written. -/
def readOnlyEnv : Env :=
  { demoEnv with writeFileError := fun _ _ => some "EACCES: permission denied" }

/-- The demo machine with a full disk: the bookmarks file can be opened, which
empties it, but nothing can be written into it. -/
def diskFullEnv : Env :=
  { demoEnv with
    writeFileError := fun _ _ => some "ENOSPC: no space left on device, write"
    failedWriteTruncates := fun _ _ => true }

/-- The world in which the home bookmarks file holds the object `o`. -/
def demoWorld (o : Obj) : World where
  files := fun p => if p = "/home/u/.jump.json" then .json o else .absent
  writes := []
  stderr := []
  stdout := []

/-- The world without any bookmarks file. -/
def freshWorld : World where
  files := fun _ => .absent
  writes := []
  stderr := []
  stdout := []

/-- The service as the command line builds it on the demo machine. -/
def demoBookmarks : Bookmarks := Bookmarks.new demoEnv

/-! ## The spec side of the invariant and of the table -/

/-- The invariant of the data model on aliases, in the words of the spec: every
key is non-empty and consists of characters of the class only. -/
def aliasInvariant (c : Obj) : Prop :=
  ∀ k ∈ objectKeys c, k ≠ "" ∧ ∀ ch ∈ k.data, specAliasChar ch

/-- Splitting a text at every line feed, as `text.split("\n")` does. -/
def splitAtNewlines : List Char → List (List Char)
  | [] => [[]]
  | c :: rest =>
    if c = '\n' then [] :: splitAtNewlines rest
    else
      match splitAtNewlines rest with
      | [] => [[c]]
      | line :: more => (c :: line) :: more

/-- The lines of a text. -/
def jsLines (s : String) : List String := (splitAtNewlines s.data).map String.mk

/-- The length of the longest of the given strings, 0 when there is none. -/
def longestLength (cells : List String) : Nat := (cells.map jsLength).foldl max 0

/-- The width of the alias column in the words of the spec. -/
def specAliasWidth (c : Obj) : Nat := max 5 (longestLength (objectKeys c))

/-- The width of the path column in the words of the spec. -/
def specPathWidth (c : Obj) : Nat := max 4 (longestLength (objectValues c))

/-! ## Lemmas on the store -/

theorem read_of_lookup (b : Bookmarks) (w : World) (a q : String)
    (h : List.lookup a (persisted b w) = some q) :
    b.storage.read w = (persisted b w, w) := by
  unfold persisted Storage.read at *
  cases hf : w.files b.storage.filePath <;> simp_all

theorem read_files (st : Storage) (w : World) : (st.read w).2.files = w.files := by
  unfold Storage.read
  cases w.files st.filePath <;> rfl

theorem read_writes (st : Storage) (w : World) : (st.read w).2.writes = w.writes := by
  unfold Storage.read
  cases w.files st.filePath <;> rfl

theorem persisted_read (b : Bookmarks) (w : World) :
    persisted b (b.storage.read w).2 = persisted b w := by
  unfold persisted Storage.read
  cases hf : w.files b.storage.filePath <;> simp [hf]

theorem getProp_of_lookup (o : Obj) (a q : String) (h : List.lookup a o = some q) :
    getProp o a = .str q := by
  simp [getProp, h]

theorem getProp_fresh (o : Obj) (a : String) (h : List.lookup a o = none)
    (hp : a ∉ objectPrototypeNames) : getProp o a = .undefined := by
  simp [getProp, h, hp]

theorem includes_mid (pre mid post : String) : includes (pre ++ mid ++ post) mid := by
  unfold includes
  exact ⟨pre.data, post.data, by simp [String.data_append]⟩

/-- What `create` does once the alias and the path have passed validation. -/
theorem create_validated (b : Bookmarks) (env : Env) (w : World) (p a : String)
    (hvalid : Utils.isValidAlias a = true)
    (hexists : Utils.pathExists env (.str (Utils.resolvePath env p)) = true) :
    b.create env w p a =
      if (getProp (b.storage.read w).1 a).truthy then
        (Result.failure ("Alias \x27" ++ a ++ "\x27 already exists. Use \x27jump remove "
          ++ a ++ "\x27 to remove it first."), (b.storage.read w).2)
      else
        match b.storage.write env (b.storage.read w).2
            (setProp (b.storage.read w).1 a (Utils.resolvePath env p)) with
        | (none, w2) =>
          (Result.done ("Bookmark \x27" ++ a ++ "\x27 created for \x27"
            ++ Utils.resolvePath env p ++ "\x27"), w2)
        | (some msg, w2) => (Result.failure ("Failed to save bookmark: " ++ msg), w2) := by
  simp [Bookmarks.create, hvalid, hexists]

/-! ## Lemmas on objects -/

theorem lookup_cons_if (l : Obj) (k v k2 : String) :
    List.lookup k2 ((k, v) :: l) = if k2 = k then some v else List.lookup k2 l := by
  by_cases h : k2 = k
  · subst h; simp
  · have hb : (k2 == k) = false := by simpa using h
    simp [List.lookup_cons, hb, h]

theorem lookup_insert_middle (pre post : Obj) (k v k2 : String) :
    List.lookup k2 (pre ++ (k, v) :: post) =
      (List.lookup k2 pre).or (if k2 = k then some v else List.lookup k2 post) := by
  rw [List.lookup_append, lookup_cons_if]

theorem lookup_insertNew_self (o : Obj) (k v : String) (h : List.lookup k o = none) :
    List.lookup k (insertNew o k v) = some v := by
  unfold insertNew
  cases arrayIndex? k with
  | none => simp [List.lookup_append, lookup_cons_if, h]
  | some n =>
    simp only
    rw [lookup_insert_middle]
    have hsplit := List.takeWhile_append_dropWhile
      (fun (e : String × String) => match arrayIndex? e.1 with
        | some m => decide (m < n)
        | none => false) o
    have h2 : List.lookup k (List.takeWhile (fun (e : String × String) =>
        match arrayIndex? e.1 with
        | some m => decide (m < n)
        | none => false) o) = none := by
      rw [← hsplit, List.lookup_append] at h
      cases hx : List.lookup k (List.takeWhile (fun (e : String × String) =>
        match arrayIndex? e.1 with
        | some m => decide (m < n)
        | none => false) o) with
      | none => rfl
      | some x => rw [hx] at h; simp at h
    rw [h2]; simp

theorem lookup_insertNew_ne (o : Obj) (k v k2 : String) (hne : k2 ≠ k) :
    List.lookup k2 (insertNew o k v) = List.lookup k2 o := by
  unfold insertNew
  cases arrayIndex? k with
  | none => simp [List.lookup_append, lookup_cons_if, hne]
  | some n =>
    simp only
    rw [lookup_insert_middle, if_neg hne, ← List.lookup_append,
      List.takeWhile_append_dropWhile]

theorem insertNew_perm (o : Obj) (k v : String) :
    List.Perm (insertNew o k v) ((k, v) :: o) := by
  unfold insertNew
  cases arrayIndex? k with
  | none => simp
  | some n =>
    simp only
    refine List.perm_middle.trans ?_
    rw [List.takeWhile_append_dropWhile]

theorem setProp_fresh (o : Obj) (k v : String) (h : List.lookup k o = none)
    (hp : k ∉ objectPrototypeNames) : setProp o k v = insertNew o k v := by
  have hk : k ≠ "__proto__" := by
    intro hk
    apply hp
    rw [hk]
    decide
  simp [setProp, h, hk]

theorem lookup_deleteProp_self (o : Obj) (k : String) :
    List.lookup k (deleteProp o k) = none := by
  induction o with
  | nil => rfl
  | cons e rest ih =>
    obtain ⟨ek, ev⟩ := e
    unfold deleteProp at ih ⊢
    by_cases h : ek = k
    · simpa [List.filter_cons, h] using ih
    · have hk : ¬ k = ek := fun hk => h hk.symm
      rw [List.filter_cons]
      simp only [h, ne_eq, not_false_eq_true, decide_True, if_true]
      rw [lookup_cons_if, if_neg hk]
      exact ih

theorem lookup_deleteProp_ne (o : Obj) (k k2 : String) (hne : k2 ≠ k) :
    List.lookup k2 (deleteProp o k) = List.lookup k2 o := by
  induction o with
  | nil => rfl
  | cons e rest ih =>
    obtain ⟨ek, ev⟩ := e
    unfold deleteProp at ih ⊢
    rw [List.filter_cons]
    by_cases h : ek = k
    · have hk : ¬ k2 = ek := by rw [h]; exact hne
      simp only [h, ne_eq, not_true_eq_false, decide_False, if_false, Bool.false_eq_true]
      rw [lookup_cons_if, if_neg (by rw [← h]; exact hk)]
      exact ih
    · simp only [h, ne_eq, not_false_eq_true, decide_True, if_true]
      rw [lookup_cons_if, lookup_cons_if, ih]

theorem write_ok (st : Storage) (env : Env) (w : World) (o : Obj)
    (hsave : env.writeFileError st.filePath o = none) :
    st.write env w o =
      (none, { w with writes := w.writes ++ [(st.filePath, o)],
                      files := fun p => if p = st.filePath then .json o else w.files p }) := by
  simp [Storage.write, hsave]

theorem persisted_after_write (b : Bookmarks) (env : Env) (w : World) (o : Obj)
    (hsave : env.writeFileError b.storage.filePath o = none) :
    persisted b (b.storage.write env w o).2 = o := by
  simp [persisted, Storage.write, hsave, Storage.read]

/-! ## The service operations in general -/

/-- What `create` does for an alias that is neither stored nor inherited, on a
path that exists, when the write succeeds. -/
theorem create_fresh (b : Bookmarks) (env : Env) (w : World) (p a : String)
    (hvalid : Utils.isValidAlias a = true)
    (hexists : Utils.pathExists env (.str (Utils.resolvePath env p)) = true)
    (hkey : List.lookup a (persisted b w) = none)
    (hproto : a ∉ objectPrototypeNames)
    (hsave : env.writeFileError b.storage.filePath
      (setProp (persisted b w) a (Utils.resolvePath env p)) = none) :
    (b.create env w p a).1 = Result.done ("Bookmark \x27" ++ a ++ "\x27 created for \x27"
        ++ Utils.resolvePath env p ++ "\x27") ∧
    (b.create env w p a).2.files b.storage.filePath =
      .json (setProp (persisted b w) a (Utils.resolvePath env p)) := by
  have hund := getProp_fresh _ _ hkey hproto
  unfold persisted at hund hsave
  rw [create_validated b env w p a hvalid hexists, hund]
  simp [JsValue.truthy, Storage.write, hsave, persisted]

/-- The collection after a successful `create` of a fresh alias: the new entry
is there, every other alias reads as before, and nothing else was added. -/
theorem create_fresh_collection (b : Bookmarks) (env : Env) (w : World) (p a : String)
    (hvalid : Utils.isValidAlias a = true)
    (hexists : Utils.pathExists env (.str (Utils.resolvePath env p)) = true)
    (hkey : List.lookup a (persisted b w) = none)
    (hproto : a ∉ objectPrototypeNames)
    (hsave : env.writeFileError b.storage.filePath
      (setProp (persisted b w) a (Utils.resolvePath env p)) = none) :
    List.lookup a (persisted b (b.create env w p a).2) = some (Utils.resolvePath env p) ∧
    (∀ k, k ≠ a →
      List.lookup k (persisted b (b.create env w p a).2) = List.lookup k (persisted b w)) ∧
    List.Perm (persisted b (b.create env w p a).2)
      ((a, Utils.resolvePath env p) :: persisted b w) := by
  obtain ⟨_, hfile⟩ := create_fresh b env w p a hvalid hexists hkey hproto hsave
  have hpers : persisted b (b.create env w p a).2
      = insertNew (persisted b w) a (Utils.resolvePath env p) := by
    rw [← setProp_fresh _ _ _ hkey hproto]
    simp [persisted, Storage.read, hfile]
  rw [hpers]
  exact ⟨lookup_insertNew_self _ _ _ hkey, fun k hk => lookup_insertNew_ne _ _ _ _ hk,
    insertNew_perm _ _ _⟩

/-- What `remove` does for an alias that is neither stored nor inherited: the
not-found failure, no write, the file untouched. -/
theorem remove_unknown_alias (b : Bookmarks) (env : Env) (w : World) (a : String)
    (hkey : List.lookup a (persisted b w) = none)
    (hproto : a ∉ objectPrototypeNames) :
    (b.remove env w a).1 = Result.failure ("Bookmark \x27" ++ a ++ "\x27 not found") ∧
    (b.remove env w a).2.writes = w.writes ∧
    (b.remove env w a).2.files = w.files ∧
    persisted b (b.remove env w a).2 = persisted b w := by
  have hund := getProp_fresh _ _ hkey hproto
  unfold persisted at hund
  have hrem : b.remove env w a
      = (Result.failure ("Bookmark \x27" ++ a ++ "\x27 not found"), (b.storage.read w).2) := by
    simp [Bookmarks.remove, hund, JsValue.truthy]
  rw [hrem]
  exact ⟨rfl, read_writes _ _, read_files _ _, persisted_read _ _⟩

/-- What `remove` does for a stored alias with a non-empty path when the write
succeeds: success, and the persisted collection loses exactly the entries of
that alias. -/
theorem remove_existing (b : Bookmarks) (env : Env) (w : World) (a q : String)
    (hkey : List.lookup a (persisted b w) = some q)
    (hq : q ≠ "")
    (hsave : env.writeFileError b.storage.filePath (deleteProp (persisted b w) a) = none) :
    (b.remove env w a).1 = Result.done ("Bookmark \x27" ++ a
        ++ "\x27 removed (was pointing to \x27" ++ q ++ "\x27)") ∧
    persisted b (b.remove env w a).2 = deleteProp (persisted b w) a ∧
    List.lookup a (persisted b (b.remove env w a).2) = none ∧
    (∀ k, k ≠ a →
      List.lookup k (persisted b (b.remove env w a).2) = List.lookup k (persisted b w)) := by
  have hread := read_of_lookup b w a q hkey
  have hget := getProp_of_lookup _ _ _ hkey
  have hrem : b.remove env w a
      = (Result.done ("Bookmark \x27" ++ a ++ "\x27 removed (was pointing to \x27" ++ q
          ++ "\x27)"),
         { w with writes := w.writes ++ [(b.storage.filePath, deleteProp (persisted b w) a)],
                  files := fun p => if p = b.storage.filePath
                    then .json (deleteProp (persisted b w) a) else w.files p }) := by
    unfold Bookmarks.remove
    rw [hread]
    simp [hget, JsValue.truthy, hq, Storage.write, hsave, JsValue.toTemplate]
  have hpers : persisted b (b.remove env w a).2 = deleteProp (persisted b w) a := by
    rw [hrem]
    simp [persisted, Storage.read]
  refine ⟨by rw [hrem], hpers, ?_, ?_⟩
  · rw [hpers]; exact lookup_deleteProp_self _ _
  · intro k hk
    rw [hpers]; exact lookup_deleteProp_ne _ _ _ hk

/-- What `get` does for an alias that is neither stored nor inherited. -/
theorem get_unknown_alias (b : Bookmarks) (env : Env) (w : World) (a : String)
    (hkey : List.lookup a (persisted b w) = none)
    (hproto : a ∉ objectPrototypeNames) :
    (b.get env w a).1 = Result.failure ("Bookmark \x27" ++ a ++ "\x27 not found") := by
  have hund := getProp_fresh _ _ hkey hproto
  unfold persisted at hund
  simp [Bookmarks.get, hund, JsValue.truthy]

/-- What `get` does for a stored alias whose non-empty path is gone. -/
theorem get_stale (b : Bookmarks) (env : Env) (w : World) (a q : String)
    (hkey : List.lookup a (persisted b w) = some q)
    (hq : q ≠ "")
    (hgone : Utils.pathExists env (.str q) = false) :
    (b.get env w a).1 = Result.failure ("Bookmarked path no longer exists: " ++ q) := by
  have hget := getProp_of_lookup _ _ _ hkey
  unfold persisted at hget
  simp [Bookmarks.get, hget, JsValue.truthy, hq, hgone, JsValue.toTemplate]

/-- What `get` does for a stored alias whose non-empty path exists. -/
theorem get_found (b : Bookmarks) (env : Env) (w : World) (a q : String)
    (hkey : List.lookup a (persisted b w) = some q)
    (hq : q ≠ "")
    (hthere : Utils.pathExists env (.str q) = true) :
    (b.get env w a).1 =
      { success := true, message := none, path := some (.str q),
        isDirectory := some (Utils.isDirectory env (.str q)),
        isFile := some (Utils.isFile env (.str q)) } := by
  have hget := getProp_of_lookup _ _ _ hkey
  unfold persisted at hget
  simp [Bookmarks.get, hget, JsValue.truthy, hq, hthere]

/-- Whatever its outcome, `get` calls no write and leaves every file as it is. -/
theorem get_no_write (b : Bookmarks) (env : Env) (w : World) (a : String) :
    (b.get env w a).2.writes = w.writes ∧
    (b.get env w a).2.files = w.files ∧
    persisted b (b.get env w a).2 = persisted b w := by
  have h2 : (b.get env w a).2 = (b.storage.read w).2 := by
    unfold Bookmarks.get
    simp only
    split <;> [rfl; (split <;> rfl)]
  rw [h2]
  exact ⟨read_writes _ _, read_files _ _, persisted_read _ _⟩

/-! ## Alias validity -/

theorem aliasClass_iff (c : Char) :
    Utils.aliasClass.any (fun item => item.test c) = true ↔ specAliasChar c := by
  have ha : ('a' : Char).val = 97 := rfl
  have hz : ('z' : Char).val = 122 := rfl
  have hA : ('A' : Char).val = 65 := rfl
  have hZ : ('Z' : Char).val = 90 := rfl
  have h0 : ('0' : Char).val = 48 := rfl
  have h9 : ('9' : Char).val = 57 := rfl
  simp only [Utils.aliasClass, List.any_cons, List.any_nil, Utils.ClassItem.test, ha, hz, hA, hZ,
    h0, h9, specAliasChar, Char.isAlpha, Char.isUpper, Char.isLower, Char.isDigit,
    Bool.or_eq_true, Bool.and_eq_true, decide_eq_true_eq, Bool.or_false, beq_iff_eq, ge_iff_le]
  tauto

theorem matchPlusToEnd_iff (cls : List Utils.ClassItem) (l : List Char) :
    Utils.matchPlusToEnd cls l = true ↔
      l ≠ [] ∧ ∀ c ∈ l, cls.any (fun item => item.test c) = true := by
  induction l with
  | nil => simp [Utils.matchPlusToEnd]
  | cons c rest ih =>
    cases rest with
    | nil => simp [Utils.matchPlusToEnd]
    | cons d rest2 =>
      rw [Utils.matchPlusToEnd, Bool.and_eq_true, Bool.or_eq_true, ih]
      simp

theorem jsLength_pos (s : String) (h : s ≠ "") : jsLength s > 0 := by
  obtain ⟨l⟩ := s
  cases l with
  | nil => exact absurd rfl h
  | cons c rest =>
    simp only [jsLength, List.map_cons, List.sum_cons]
    split <;> omega

theorem isValidAlias_iff_chars (s : String) :
    Utils.isValidAlias s = true ↔ (s ≠ "" ∧ ∀ c ∈ s.data, specAliasChar c) := by
  have hne : s.data ≠ [] ↔ s ≠ "" := by
    constructor
    · intro h hs; exact h (by rw [hs])
    · intro h hs; exact h (String.ext hs)
  unfold Utils.isValidAlias Utils.aliasRegexTest
  rw [Bool.and_eq_true, matchPlusToEnd_iff, decide_eq_true_eq, hne]
  constructor
  · rintro ⟨⟨h1, h2⟩, _⟩
    exact ⟨h1, fun c hc => (aliasClass_iff c).1 (h2 c hc)⟩
  · rintro ⟨h1, h2⟩
    exact ⟨⟨h1, fun c hc => (aliasClass_iff c).2 (h2 c hc)⟩, jsLength_pos s h1⟩

/-! ## The table -/

theorem foldl_max_ge_init (l : List Nat) (init : Nat) : init ≤ l.foldl max init := by
  induction l generalizing init with
  | nil => exact Nat.le_refl _
  | cons x rest ih => exact Nat.le_trans (Nat.le_max_left _ _) (ih (max init x))

theorem foldl_max_ge_mem (l : List Nat) (init x : Nat) (hx : x ∈ l) :
    x ≤ l.foldl max init := by
  induction l generalizing init with
  | nil => cases hx
  | cons y rest ih =>
    rcases List.mem_cons.1 hx with h | h
    · subst h
      exact Nat.le_trans (Nat.le_max_right _ _) (foldl_max_ge_init rest (max init x))
    · exact ih (max init y) h

theorem foldl_max_attained (l : List Nat) (init : Nat) :
    l.foldl max init = init ∨ l.foldl max init ∈ l := by
  induction l generalizing init with
  | nil => exact Or.inl rfl
  | cons y rest ih =>
    rcases ih (max init y) with h | h
    · rcases Nat.le_total init y with hle | hle
      · right
        rw [List.foldl_cons, h, Nat.max_eq_right hle]
        exact List.mem_cons_self _ _
      · left
        rw [List.foldl_cons, h, Nat.max_eq_left hle]
    · exact Or.inr (List.mem_cons_of_mem _ h)

/-- The column width `Math.max(...lengths, minimum)`: at least the minimum, at
least every length, and equal to the minimum or to one of the lengths. -/
theorem mathMax_spec (l : List Nat) (m : Nat) :
    m ≤ mathMax (l ++ [m]) ∧ (∀ x ∈ l, x ≤ mathMax (l ++ [m])) ∧
    (mathMax (l ++ [m]) = m ∨ mathMax (l ++ [m]) ∈ l) := by
  unfold mathMax
  refine ⟨foldl_max_ge_mem _ _ _ (by simp), fun x hx => foldl_max_ge_mem _ _ _ (by simp [hx]), ?_⟩
  rcases foldl_max_attained (l ++ [m]) 0 with h | h
  · left
    have hm : m ≤ (l ++ [m]).foldl max 0 := foldl_max_ge_mem _ _ _ (by simp)
    omega
  · rcases List.mem_append.1 h with h1 | h1
    · exact Or.inr h1
    · left
      simpa using h1

theorem intercalate_go_infix (sep : String) (l : List String) (acc x : String)
    (h : x.data <:+: acc.data ∨ x ∈ l) :
    x.data <:+: (String.intercalate.go acc sep l).data := by
  induction l generalizing acc with
  | nil =>
    rcases h with h | h
    · exact h
    · cases h
  | cons a rest ih =>
    rw [String.intercalate.go]
    apply ih
    rcases h with h | h
    · left
      obtain ⟨s, t, hst⟩ := h
      exact ⟨s, t ++ sep.data ++ a.data, by simp [String.data_append, ← hst]⟩
    · rcases List.mem_cons.1 h with h1 | h1
      · left
        subst h1
        exact ⟨acc.data ++ sep.data, [], by simp [String.data_append]⟩
      · exact Or.inr h1

theorem intercalate_includes (sep : String) (l : List String) (x : String) (hx : x ∈ l) :
    includes (String.intercalate sep l) x := by
  unfold includes
  cases l with
  | nil => cases hx
  | cons a rest =>
    rw [String.intercalate]
    apply intercalate_go_infix
    rcases List.mem_cons.1 hx with h | h
    · left; subst h; exact List.infix_refl _
    · exact Or.inr h

theorem mem_keys_of_lookup (c : Obj) (a p : String) (h : List.lookup a c = some p) :
    a ∈ objectKeys c := by
  induction c with
  | nil => simp at h
  | cons e rest ih =>
    obtain ⟨k, v⟩ := e
    rw [lookup_cons_if] at h
    by_cases hk : a = k
    · subst hk; simp [objectKeys]
    · rw [if_neg hk] at h
      have := ih h
      simp only [objectKeys, List.map_cons, List.mem_cons]
      exact Or.inr this

/-- C10, amended: for every collection and every alias `a` stored in it with
path `p`, the table contains the row made of `a` padded with spaces to the
alias column width, the text ` | `, and `p` padded to the path column width.
The alias width is the larger of 5 and the longest alias length, the path
width the larger of 4 and the longest path length. -/
theorem table_contains_padded_row (c : Obj) (a p : String)
    (h : List.lookup a c = some p) :
    ∃ wa wp : Nat,
      (5 ≤ wa ∧ (∀ k ∈ objectKeys c, jsLength k ≤ wa) ∧
        (wa = 5 ∨ ∃ k ∈ objectKeys c, jsLength k = wa)) ∧
      (4 ≤ wp ∧ (∀ v ∈ objectValues c, jsLength v ≤ wp) ∧
        (wp = 4 ∨ ∃ v ∈ objectValues c, jsLength v = wp)) ∧
      includes (Utils.formatBookmarksTable c) (padEnd a wa ++ " | " ++ padEnd p wp) := by
  have hmem := mem_keys_of_lookup c a p h
  have hlen : ¬ (objectKeys c).length = 0 := by
    intro h0
    rw [List.length_eq_zero] at h0
    rw [h0] at hmem
    cases hmem
  have h5 : jsLength "ALIAS" = 5 := by decide
  have h4 : jsLength "PATH" = 4 := by decide
  obtain ⟨ha1, ha2, ha3⟩ := mathMax_spec ((objectKeys c).map jsLength) (jsLength "ALIAS")
  obtain ⟨hp1, hp2, hp3⟩ := mathMax_spec ((objectValues c).map jsLength) (jsLength "PATH")
  refine ⟨mathMax ((objectKeys c).map jsLength ++ [jsLength "ALIAS"]),
    mathMax ((objectValues c).map jsLength ++ [jsLength "PATH"]), ⟨?_, ?_, ?_⟩, ⟨?_, ?_, ?_⟩, ?_⟩
  · rw [h5] at ha1; exact ha1
  · intro k hk
    exact ha2 _ (List.mem_map_of_mem _ hk)
  · rcases ha3 with h1 | h1
    · left; rw [h1, h5]
    · right
      obtain ⟨k, hk, hk2⟩ := List.mem_map.1 h1
      exact ⟨k, hk, hk2⟩
  · rw [h4] at hp1; exact hp1
  · intro v hv
    exact hp2 _ (List.mem_map_of_mem _ hv)
  · rcases hp3 with h1 | h1
    · left; rw [h1, h4]
    · right
      obtain ⟨v, hv, hv2⟩ := List.mem_map.1 h1
      exact ⟨v, hv, hv2⟩
  · unfold Utils.formatBookmarksTable
    simp only [hlen, if_false]
    apply intercalate_includes
    refine List.mem_cons_of_mem _ (List.mem_cons_of_mem _ ?_)
    refine List.mem_map.2 ⟨a, hmem, ?_⟩
    rw [getProp_of_lookup c a p h]
    rfl

/-- C10, witness: in the table of the collection with the single entry
`WORK -> /tmp/dir` the widths are 5 and 8, and the row reads `WORK`, two
spaces, the bar, one space, `/tmp/dir`. -/
theorem table_contains_padded_row_witness :
    List.lookup "WORK" [("WORK", "/tmp/dir")] = some "/tmp/dir" ∧
    includes (Utils.formatBookmarksTable [("WORK", "/tmp/dir")]) "WORK  | /tmp/dir" := by
  refine ⟨by decide, ?_⟩
  obtain ⟨wa, wp, ⟨h5, _, ha⟩, ⟨_, hv, hp⟩, hinc⟩ :=
    table_contains_padded_row [("WORK", "/tmp/dir")] "WORK" "/tmp/dir" (by decide)
  have hk : jsLength "WORK" = 4 := by decide
  have hl : jsLength "/tmp/dir" = 8 := by decide
  have hwa : wa = 5 := by
    rcases ha with h | ⟨k, hk1, hk2⟩
    · exact h
    · simp only [objectKeys, List.map_cons, List.map_nil, List.mem_singleton] at hk1
      rw [hk1, hk] at hk2
      omega
  have hwp : wp = 8 := by
    have h8 := hv "/tmp/dir" (by simp [objectValues])
    rcases hp with h | ⟨v, hv1, hv2⟩
    · omega
    · simp only [objectValues, List.map_cons, List.map_nil, List.mem_singleton] at hv1
      rw [hv1, hl] at hv2
      exact hv2.symm
  rw [hwa, hwp] at hinc
  exact hinc

/-- C10, counterexample: for the collection with the single entry
`WORK -> /tmp/dir` the alias column is five characters wide, so the row reads
`WORK`, two spaces, the bar, one space, the path; the text `WORK | /tmp/dir`
with a single space before the bar does not occur in the table. -/
theorem table_lacks_unpadded_row :
    List.lookup "WORK" [("WORK", "/tmp/dir")] = some "/tmp/dir" ∧
    Utils.formatBookmarksTable [("WORK", "/tmp/dir")]
      = "ALIAS | PATH    \n----------------\nWORK  | /tmp/dir" ∧
    ¬ includes (Utils.formatBookmarksTable [("WORK", "/tmp/dir")])
        ("WORK" ++ " | " ++ "/tmp/dir") := by
  decide

/-- The `list` command prints the table of the persisted collection. -/
theorem list_prints_table (b : Bookmarks) (w : World) :
    (Commands.list b w).stdout
      = (b.storage.read w).2.stdout ++ [Utils.formatBookmarksTable (persisted b w)] := by
  rfl

/-! ## The claims on `create` -/

/-- C1, amended: for every persisted collection, every valid alias `a` that is
neither a key of it nor a property name inherited from `Object.prototype`, and
every input path `p` whose resolved path exists and is not the empty string, if
the write succeeds then `create(p, a)` succeeds and a following `get(a)`, made
while the path still exists, succeeds with exactly the resolved path and the
kind flags the filesystem reports for it. -/
theorem create_then_get_fresh_alias (b : Bookmarks) (env env2 : Env) (w : World) (p a : String)
    (hvalid : Utils.isValidAlias a = true)
    (hexists : Utils.pathExists env (.str (Utils.resolvePath env p)) = true)
    (hkey : List.lookup a (persisted b w) = none)
    (hproto : a ∉ objectPrototypeNames)
    (hne : Utils.resolvePath env p ≠ "")
    (hsave : env.writeFileError b.storage.filePath
      (setProp (persisted b w) a (Utils.resolvePath env p)) = none)
    (hstill : Utils.pathExists env2 (.str (Utils.resolvePath env p)) = true) :
    (b.create env w p a).1.success = true ∧
    (b.get env2 (b.create env w p a).2 a).1 =
      { success := true, message := none,
        path := some (.str (Utils.resolvePath env p)),
        isDirectory := some (Utils.isDirectory env2 (.str (Utils.resolvePath env p))),
        isFile := some (Utils.isFile env2 (.str (Utils.resolvePath env p))) } := by
  obtain ⟨hres, hfile⟩ := create_fresh b env w p a hvalid hexists hkey hproto hsave
  refine ⟨by rw [hres]; rfl, ?_⟩
  have hlook : List.lookup a (setProp (persisted b w) a (Utils.resolvePath env p))
      = some (Utils.resolvePath env p) := by
    rw [setProp_fresh _ _ _ hkey hproto]
    exact lookup_insertNew_self _ _ _ hkey
  have hget := getProp_of_lookup _ _ _ hlook
  simp [Bookmarks.get, Storage.read, hfile, hget, JsValue.truthy, hne, hstill]

/-- C1, witness: the fresh alias `WORK` for the existing directory `/tmp/dir` on
the demo machine, starting without a bookmarks file. -/
theorem create_then_get_fresh_alias_witness :
    (Utils.isValidAlias "WORK" = true ∧
      Utils.pathExists demoEnv (.str (Utils.resolvePath demoEnv "/tmp/dir")) = true ∧
      List.lookup "WORK" (persisted demoBookmarks freshWorld) = none ∧
      "WORK" ∉ objectPrototypeNames ∧
      Utils.resolvePath demoEnv "/tmp/dir" ≠ "") ∧
    ((demoBookmarks.create demoEnv freshWorld "/tmp/dir" "WORK").1.success = true ∧
      (demoBookmarks.get demoEnv (demoBookmarks.create demoEnv freshWorld "/tmp/dir" "WORK").2
          "WORK").1 =
        { success := true, message := none,
          path := some (.str (Utils.resolvePath demoEnv "/tmp/dir")),
          isDirectory :=
            some (Utils.isDirectory demoEnv (.str (Utils.resolvePath demoEnv "/tmp/dir"))),
          isFile := some (Utils.isFile demoEnv (.str (Utils.resolvePath demoEnv "/tmp/dir"))) }) :=
  ⟨by decide,
   create_then_get_fresh_alias demoBookmarks demoEnv demoEnv freshWorld "/tmp/dir" "WORK"
    (by decide) (by decide) (by decide) (by decide) (by decide) (by decide) (by decide)⟩

/-- C1, counterexample: `work` is a valid alias already bound to `/tmp/dir`, and
`/tmp/dir2` exists; `create("/tmp/dir2", "work")` is refused and the following
`get("work")` succeeds with the old path `/tmp/dir`, not with the resolved path
of the input.  Likewise, when the write fails, `create("/tmp/dir", "WORK")` on
an empty store fails and the following `get("WORK")` finds nothing. -/
theorem create_refused_get_returns_old_path :
    Utils.isValidAlias "work" = true ∧
    Utils.pathExists demoEnv (.str (Utils.resolvePath demoEnv "/tmp/dir2")) = true ∧
    (demoBookmarks.create demoEnv (demoWorld [("work", "/tmp/dir")]) "/tmp/dir2" "work").1.success
      = false ∧
    (demoBookmarks.get demoEnv
        (demoBookmarks.create demoEnv (demoWorld [("work", "/tmp/dir")]) "/tmp/dir2" "work").2
        "work").1.path = some (.str "/tmp/dir") ∧
    (demoBookmarks.get demoEnv
        (demoBookmarks.create demoEnv (demoWorld [("work", "/tmp/dir")]) "/tmp/dir2" "work").2
        "work").1.path ≠ some (.str (Utils.resolvePath demoEnv "/tmp/dir2")) ∧
    Utils.isValidAlias "WORK" = true ∧
    Utils.pathExists readOnlyEnv (.str (Utils.resolvePath readOnlyEnv "/tmp/dir")) = true ∧
    (demoBookmarks.create readOnlyEnv freshWorld "/tmp/dir" "WORK").1
      = Result.failure "Failed to save bookmark: EACCES: permission denied" ∧
    (demoBookmarks.get readOnlyEnv
        (demoBookmarks.create readOnlyEnv freshWorld "/tmp/dir" "WORK").2 "WORK").1
      = Result.failure "Bookmark \x27WORK\x27 not found" := by
  decide

/-- C2, amended: for every persisted collection, every valid alias `a` that is
a key of it with a non-empty stored path `q`, and every input path `p` whose
resolved path exists, `create(p, a)` fails with the message that the alias
already exists, makes no write and leaves the world, hence the persisted
collection and the path stored under `a`, exactly as it was. -/
theorem create_existing_alias_fails (b : Bookmarks) (env : Env) (w : World) (p a q : String)
    (hvalid : Utils.isValidAlias a = true)
    (hexists : Utils.pathExists env (.str (Utils.resolvePath env p)) = true)
    (hkey : List.lookup a (persisted b w) = some q)
    (hq : q ≠ "") :
    (b.create env w p a).1 = Result.failure ("Alias \x27" ++ a
        ++ "\x27 already exists. Use \x27jump remove " ++ a ++ "\x27 to remove it first.") ∧
    (∃ m, (b.create env w p a).1.message = some m ∧ includes m "already exists") ∧
    (b.create env w p a).2 = w ∧
    persisted b (b.create env w p a).2 = persisted b w ∧
    List.lookup a (persisted b (b.create env w p a).2) = some q := by
  have hread := read_of_lookup b w a q hkey
  have hget := getProp_of_lookup _ _ _ hkey
  have hcreate : b.create env w p a = (Result.failure ("Alias \x27" ++ a
        ++ "\x27 already exists. Use \x27jump remove " ++ a ++ "\x27 to remove it first."), w) := by
    rw [create_validated b env w p a hvalid hexists, hread]
    simp [hget, JsValue.truthy, hq]
  rw [hcreate]
  refine ⟨rfl, ⟨_, rfl, ?_⟩, rfl, rfl, hkey⟩
  have hmsg : "Alias \x27" ++ a ++ "\x27 already exists. Use \x27jump remove " ++ a
      ++ "\x27 to remove it first."
      = ("Alias \x27" ++ a ++ "\x27 ") ++ "already exists"
        ++ (". Use \x27jump remove " ++ a ++ "\x27 to remove it first.") := by
    apply String.ext
    simp [String.data_append]
  rw [hmsg]
  exact includes_mid _ _ _

/-- C2, witness: `work` is bound to `/tmp/dir` and `/tmp/dir2` exists. -/
theorem create_existing_alias_fails_witness :
    (Utils.isValidAlias "work" = true ∧
      Utils.pathExists demoEnv (.str (Utils.resolvePath demoEnv "/tmp/dir2")) = true ∧
      List.lookup "work" (persisted demoBookmarks (demoWorld [("work", "/tmp/dir")]))
        = some "/tmp/dir") ∧
    (demoBookmarks.create demoEnv (demoWorld [("work", "/tmp/dir")]) "/tmp/dir2" "work").2
      = demoWorld [("work", "/tmp/dir")] :=
  ⟨by decide,
   (create_existing_alias_fails demoBookmarks demoEnv (demoWorld [("work", "/tmp/dir")])
      "/tmp/dir2" "work" "/tmp/dir" (by decide) (by decide) (by decide) (by decide)).2.2.1⟩

/-- C2, counterexample: `work` is a key of the persisted collection, but the
input path does not exist; `create` fails with the message that the path does
not exist, which does not say that the alias already exists.  Likewise a key
that is not a valid alias, `my alias`, is answered by the invalid-alias
message. -/
theorem create_missing_path_checked_before_alias :
    List.lookup "work" (persisted demoBookmarks (demoWorld [("work", "/tmp/dir")]))
      = some "/tmp/dir" ∧
    (demoBookmarks.create demoEnv (demoWorld [("work", "/tmp/dir")])
        "/this/path/does/not/exist" "work").1
      = Result.failure "Path does not exist: /this/path/does/not/exist" ∧
    ¬ includes "Path does not exist: /this/path/does/not/exist" "already exists" ∧
    List.lookup "my alias" (persisted demoBookmarks (demoWorld [("my alias", "/tmp/dir")]))
      = some "/tmp/dir" ∧
    (demoBookmarks.create demoEnv (demoWorld [("my alias", "/tmp/dir")]) "/tmp/dir2"
        "my alias").1
      = Result.failure
          "Invalid alias format. Use only alphanumeric characters, underscores, and hyphens." ∧
    ¬ includes "Invalid alias format. Use only alphanumeric characters, underscores, and hyphens."
        "already exists" := by
  decide

/-- C3, amended: for every world, every valid alias `a` and every input path
`p` whose resolved path does not exist, `create(p, a)` fails with the message
that the path does not exist, naming the resolved path, and leaves the world,
hence the persisted collection, exactly as it was, without any write. -/
theorem create_missing_path_fails (b : Bookmarks) (env : Env) (w : World) (p a : String)
    (hvalid : Utils.isValidAlias a = true)
    (hmissing : Utils.pathExists env (.str (Utils.resolvePath env p)) = false) :
    (b.create env w p a).1
      = Result.failure ("Path does not exist: " ++ Utils.resolvePath env p) ∧
    (∃ m, (b.create env w p a).1.message = some m ∧ includes m "does not exist") ∧
    (b.create env w p a).2 = w := by
  have hcreate : b.create env w p a
      = (Result.failure ("Path does not exist: " ++ Utils.resolvePath env p), w) := by
    simp [Bookmarks.create, hvalid, hmissing]
  rw [hcreate]
  refine ⟨rfl, ⟨_, rfl, ?_⟩, rfl⟩
  have hmsg : "Path does not exist: " ++ Utils.resolvePath env p
      = "Path " ++ "does not exist" ++ (": " ++ Utils.resolvePath env p) := by
    apply String.ext
    simp [String.data_append]
  rw [hmsg]
  exact includes_mid _ _ _

/-- C3, witness: the ninth test, `create /this/path/does/not/exist invalid`. -/
theorem create_missing_path_fails_witness :
    (Utils.isValidAlias "invalid" = true ∧
      Utils.pathExists demoEnv (.str (Utils.resolvePath demoEnv "/this/path/does/not/exist"))
        = false) ∧
    (demoBookmarks.create demoEnv freshWorld "/this/path/does/not/exist" "invalid").1
      = Result.failure ("Path does not exist: "
          ++ Utils.resolvePath demoEnv "/this/path/does/not/exist") :=
  ⟨by decide,
   (create_missing_path_fails demoBookmarks demoEnv freshWorld "/this/path/does/not/exist" "invalid"
      (by decide) (by decide)).1⟩

/-- C3, counterexample: the alias `my alias` holds a space and the path does
not exist; `create` fails on the alias first, with the invalid-alias message,
which does not say that the path does not exist. -/
theorem create_invalid_alias_checked_first :
    Utils.pathExists demoEnv (.str (Utils.resolvePath demoEnv "/this/path/does/not/exist"))
      = false ∧
    (demoBookmarks.create demoEnv freshWorld "/this/path/does/not/exist" "my alias").1
      = Result.failure
          "Invalid alias format. Use only alphanumeric characters, underscores, and hyphens." ∧
    ¬ includes "Invalid alias format. Use only alphanumeric characters, underscores, and hyphens."
        "does not exist" := by
  decide

/-! ## The claims on `remove`, `get`, validation and storage -/

/-- C4, failing input: without any bookmarks file `constructor` is not a key of
the (empty) persisted collection, yet `remove("constructor")` reports success,
names the inherited function as the removed path, calls the write once and
creates the bookmarks file. -/
theorem remove_inherited_name_succeeds :
    List.lookup "constructor" (persisted demoBookmarks freshWorld) = none ∧
    (demoBookmarks.remove demoEnv freshWorld "constructor").1 =
      Result.done ("Bookmark \x27constructor\x27 removed (was pointing to "
        ++ "\x27function Object() \x7b [native code] \x7d\x27)") ∧
    (demoBookmarks.remove demoEnv freshWorld "constructor").2.writes
      = [("/home/u/.jump.json", [])] ∧
    freshWorld.files "/home/u/.jump.json" = .absent ∧
    (demoBookmarks.remove demoEnv freshWorld "constructor").2.files "/home/u/.jump.json"
      = .json [] := by
  decide

/-- C5, failing input: the persisted collection holds the single entry
`constructor -> /tmp/dir`; `remove("constructor")` succeeds and empties the
collection, but the following `get("constructor")` reads the inherited member
and fails with the path-gone message, not with the not-found message. -/
theorem get_after_remove_inherited_name :
    List.lookup "constructor" (persisted demoBookmarks (demoWorld [("constructor", "/tmp/dir")]))
      = some "/tmp/dir" ∧
    (demoBookmarks.remove demoEnv (demoWorld [("constructor", "/tmp/dir")])
      "constructor").1.success = true ∧
    persisted demoBookmarks (demoBookmarks.remove demoEnv
      (demoWorld [("constructor", "/tmp/dir")]) "constructor").2 = [] ∧
    (demoBookmarks.get demoEnv (demoBookmarks.remove demoEnv
      (demoWorld [("constructor", "/tmp/dir")]) "constructor").2 "constructor").1 =
      Result.failure ("Bookmarked path no longer exists: "
        ++ "function Object() \x7b [native code] \x7d") ∧
    ¬ includes ("Bookmarked path no longer exists: "
        ++ "function Object() \x7b [native code] \x7d") "not found" := by
  decide

/-- C6, failing input: `constructor` is a valid alias, `/tmp/dir` exists, the
persisted collection is empty and writes succeed, yet
`create("/tmp/dir", "constructor")` fails with the already-exists message and
writes nothing. -/
theorem create_inherited_name_refused :
    Utils.isValidAlias "constructor" = true ∧
    Utils.pathExists demoEnv (.str (Utils.resolvePath demoEnv "/tmp/dir")) = true ∧
    List.lookup "constructor" (persisted demoBookmarks freshWorld) = none ∧
    (demoBookmarks.create demoEnv freshWorld "/tmp/dir" "constructor").1 =
      Result.failure ("Alias \x27constructor\x27 already exists. "
        ++ "Use \x27jump remove constructor\x27 to remove it first.") ∧
    (demoBookmarks.create demoEnv freshWorld "/tmp/dir" "constructor").2.writes = [] ∧
    persisted demoBookmarks (demoBookmarks.create demoEnv freshWorld "/tmp/dir"
      "constructor").2 = [] := by
  decide

/-- C7: `isValidAlias(s)` holds exactly when `s` is not empty and each of its
characters is an ASCII letter, an ASCII digit, an underscore or a hyphen; there
is no bound on the length (a run of any positive number of letters is valid);
`WORK` is valid, `my alias` and the empty string are not. -/
theorem isValidAlias_iff_spec :
    (∀ s : String, Utils.isValidAlias s = true ↔ (s ≠ "" ∧ ∀ c ∈ s.data, specAliasChar c)) ∧
    (∀ n : Nat, Utils.isValidAlias (String.mk (List.replicate (n + 1) 'a')) = true) ∧
    Utils.isValidAlias "WORK" = true ∧
    Utils.isValidAlias "my alias" = false ∧
    Utils.isValidAlias "" = false := by
  have main : ∀ s : String,
      Utils.isValidAlias s = true ↔ (s ≠ "" ∧ ∀ c ∈ s.data, specAliasChar c) :=
    isValidAlias_iff_chars
  refine ⟨main, ?_, by decide, by decide, by decide⟩
  intro n
  rw [main]
  constructor
  · intro h
    have := congrArg String.data h
    simp [List.replicate_succ] at this
  · intro c hc
    have hc2 : c = 'a' := by
      simp only [List.mem_replicate] at hc
      exact hc.2
    rw [hc2]
    unfold specAliasChar
    left
    decide

/-- C8, failing input: the storage path is built from the home directory alone,
whatever the environment variables hold; with `JUMP_BOOKMARKS_PATH` set to
`/tmp/jump-test.json`, as the tests set it, `create` still writes the dotfile in
the home directory and the file named by the variable stays absent. -/
theorem storage_ignores_override :
    (∀ (env : Env) (vars : String → Option String),
      (Storage.new { env with vars := vars }).filePath = env.pathJoin env.homedir ".jump.json") ∧
    demoEnv.vars "JUMP_BOOKMARKS_PATH" = some "/tmp/jump-test.json" ∧
    (Bookmarks.new demoEnv).storage.getFilePath = "/home/u/.jump.json" ∧
    ((Bookmarks.new demoEnv).create demoEnv freshWorld "/tmp/dir" "WORK").1.success = true ∧
    ((Bookmarks.new demoEnv).create demoEnv freshWorld "/tmp/dir" "WORK").2.writes
      = [("/home/u/.jump.json", [("WORK", "/tmp/dir")])] ∧
    ((Bookmarks.new demoEnv).create demoEnv freshWorld "/tmp/dir" "WORK").2.files
      "/tmp/jump-test.json" = .absent := by
  refine ⟨fun env vars => rfl, ?_⟩
  decide

/-- C9, failing input: without any bookmarks file `constructor` is not a key of
the persisted collection, yet `get("constructor")` does not answer not-found:
it reads the inherited member and fails with the path-gone message. -/
theorem get_inherited_name_path_gone :
    List.lookup "constructor" (persisted demoBookmarks freshWorld) = none ∧
    (demoBookmarks.get demoEnv freshWorld "constructor").1 =
      Result.failure ("Bookmarked path no longer exists: "
        ++ "function Object() \x7b [native code] \x7d") ∧
    ¬ includes ("Bookmarked path no longer exists: "
        ++ "function Object() \x7b [native code] \x7d") "not found" := by
  decide

/-! ## Failed writes -/

theorem includes_suffix (pre post : String) : includes (pre ++ post) post := by
  unfold includes
  exact ⟨pre.data, [], by simp [String.data_append]⟩

/-- The world a failed write leaves: one more entry in the write log, one more
line on the error stream, and the file either as it was or unreadable. -/
theorem write_failed (st : Storage) (env : Env) (w : World) (o : Obj) (msg : String)
    (hfail : env.writeFileError st.filePath o = some msg) :
    st.write env w o =
      (some msg,
       { w with
         writes := w.writes ++ [(st.filePath, o)]
         stderr := w.stderr ++ ["Error writing bookmarks file: " ++ msg]
         files := fun p =>
           if p = st.filePath ∧ env.failedWriteTruncates st.filePath o = true then
             .malformed "Unexpected end of JSON input"
           else w.files p }) := by
  simp [Storage.write, hfail]

theorem persisted_of_files (b : Bookmarks) (w w2 : World)
    (h : w2.files b.storage.filePath = w.files b.storage.filePath) :
    persisted b w2 = persisted b w := by
  unfold persisted Storage.read
  rw [h]
  cases w.files b.storage.filePath <;> rfl

/-- What `create` does when its three checks pass and the write throws. -/
theorem create_save_failure (b : Bookmarks) (env : Env) (w : World) (p a msg : String)
    (hvalid : Utils.isValidAlias a = true)
    (hexists : Utils.pathExists env (.str (Utils.resolvePath env p)) = true)
    (hfree : (getProp (persisted b w) a).truthy = false)
    (hfail : env.writeFileError b.storage.filePath
      (setProp (persisted b w) a (Utils.resolvePath env p)) = some msg) :
    (b.create env w p a).1 = Result.failure ("Failed to save bookmark: " ++ msg) ∧
    (b.create env w p a).2.writes = w.writes ++
      [(b.storage.filePath, setProp (persisted b w) a (Utils.resolvePath env p))] ∧
    (b.create env w p a).2.files b.storage.filePath =
      (if env.failedWriteTruncates b.storage.filePath
          (setProp (persisted b w) a (Utils.resolvePath env p)) = true
        then .malformed "Unexpected end of JSON input" else w.files b.storage.filePath) := by
  unfold persisted at hfree hfail
  rw [create_validated b env w p a hvalid hexists, hfree]
  simp only [Bool.false_eq_true, if_false]
  rw [write_failed _ _ _ _ _ hfail]
  simp [persisted, read_writes, read_files]

/-- What `remove` does when the alias is found and the write throws. -/
theorem remove_save_failure (b : Bookmarks) (env : Env) (w : World) (a msg : String)
    (hfound : (getProp (persisted b w) a).truthy = true)
    (hfail : env.writeFileError b.storage.filePath (deleteProp (persisted b w) a) = some msg) :
    (b.remove env w a).1 = Result.failure ("Failed to remove bookmark: " ++ msg) ∧
    (b.remove env w a).2.writes = w.writes ++
      [(b.storage.filePath, deleteProp (persisted b w) a)] ∧
    (b.remove env w a).2.files b.storage.filePath =
      (if env.failedWriteTruncates b.storage.filePath (deleteProp (persisted b w) a) = true
        then .malformed "Unexpected end of JSON input" else w.files b.storage.filePath) := by
  unfold persisted at hfound hfail
  have hrem : b.remove env w a =
      match b.storage.write env (b.storage.read w).2 (deleteProp (b.storage.read w).1 a) with
      | (none, w2) =>
        (Result.done ("Bookmark \x27" ++ a ++ "\x27 removed (was pointing to \x27"
          ++ (getProp (b.storage.read w).1 a).toTemplate ++ "\x27)"), w2)
      | (some m, w2) => (Result.failure ("Failed to remove bookmark: " ++ m), w2) := by
    simp [Bookmarks.remove, hfound]
  rw [hrem, write_failed _ _ _ _ _ hfail]
  simp [persisted, read_writes, read_files]

/-! ## What the operations leave persisted -/

theorem keys_replaceOwn (c : Obj) (a v : String) :
    objectKeys (replaceOwn c a v) = objectKeys c := by
  unfold objectKeys replaceOwn
  rw [List.map_map]
  apply List.map_congr_left
  intro e _
  simp only [Function.comp]
  split <;> rfl

theorem keys_insertNew (c : Obj) (a v k : String) (hk : k ∈ objectKeys (insertNew c a v)) :
    k = a ∨ k ∈ objectKeys c := by
  have hperm := (insertNew_perm c a v).map Prod.fst
  have hmem : k ∈ List.map Prod.fst ((a, v) :: c) := hperm.mem_iff.1 hk
  simpa [objectKeys] using hmem

theorem keys_setProp (c : Obj) (a v k : String) (hk : k ∈ objectKeys (setProp c a v)) :
    k = a ∨ k ∈ objectKeys c := by
  unfold setProp at hk
  split at hk
  · rw [keys_replaceOwn] at hk
    exact Or.inr hk
  · split at hk
    · exact Or.inr hk
    · exact keys_insertNew c a v k hk

theorem keys_deleteProp (c : Obj) (a k : String) (hk : k ∈ objectKeys (deleteProp c a)) :
    k ∈ objectKeys c := by
  unfold objectKeys deleteProp at *
  obtain ⟨e, he, hek⟩ := List.mem_map.1 hk
  exact List.mem_map.2 ⟨e, (List.mem_filter.1 he).1, hek⟩

/-- After a write, successful or not, the file holds the object written, or
what it held before, or nothing that parses. -/
theorem persisted_write_cases (b : Bookmarks) (env : Env) (w : World) (o : Obj) :
    persisted b (b.storage.write env w o).2 = o ∨
    persisted b (b.storage.write env w o).2 = persisted b w ∨
    persisted b (b.storage.write env w o).2 = [] := by
  cases hwr : env.writeFileError b.storage.filePath o with
  | none => exact Or.inl (persisted_after_write b env w o hwr)
  | some msg =>
    rw [write_failed _ _ _ _ _ hwr]
    by_cases ht : env.failedWriteTruncates b.storage.filePath o = true
    · right; right
      simp [persisted, Storage.read, ht]
    · right; left
      apply persisted_of_files
      simp [ht]

/-- The collection `create` leaves: the old one, none, or the old one with the
valid alias set. -/
theorem create_persisted_cases (b : Bookmarks) (env : Env) (w : World) (p a : String) :
    persisted b (b.create env w p a).2 = persisted b w ∨
    persisted b (b.create env w p a).2 = [] ∨
    (Utils.isValidAlias a = true ∧
      persisted b (b.create env w p a).2
        = setProp (persisted b w) a (Utils.resolvePath env p)) := by
  by_cases hvalid : Utils.isValidAlias a = true
  · by_cases hexists : Utils.pathExists env (.str (Utils.resolvePath env p)) = true
    · rw [create_validated b env w p a hvalid hexists]
      by_cases htruthy : (getProp (b.storage.read w).1 a).truthy = true
      · left
        rw [if_pos htruthy]
        exact persisted_read b w
      · rw [if_neg htruthy]
        have hcases := persisted_write_cases b env (b.storage.read w).2
          (setProp (b.storage.read w).1 a (Utils.resolvePath env p))
        rw [persisted_read] at hcases
        have hsnd : ∀ x : Option String × World,
            (match x with
              | (none, w2) =>
                (Result.done ("Bookmark \x27" ++ a ++ "\x27 created for \x27"
                  ++ Utils.resolvePath env p ++ "\x27"), w2)
              | (some msg, w2) => (Result.failure ("Failed to save bookmark: " ++ msg), w2)).2
              = x.2 := by
          rintro ⟨_ | m, w2⟩ <;> rfl
        rw [hsnd]
        rcases hcases with h | h | h
        · exact Or.inr (Or.inr ⟨hvalid, h⟩)
        · exact Or.inl h
        · exact Or.inr (Or.inl h)
    · left
      have : Utils.pathExists env (.str (Utils.resolvePath env p)) = false := by
        simpa using hexists
      simp [Bookmarks.create, hvalid, this]
  · left
    have : Utils.isValidAlias a = false := by simpa using hvalid
    simp [Bookmarks.create, this]

/-- The collection `remove` leaves: the old one, none, or the old one without
the alias. -/
theorem remove_persisted_cases (b : Bookmarks) (env : Env) (w : World) (a : String) :
    persisted b (b.remove env w a).2 = persisted b w ∨
    persisted b (b.remove env w a).2 = [] ∨
    persisted b (b.remove env w a).2 = deleteProp (persisted b w) a := by
  by_cases htruthy : (getProp (b.storage.read w).1 a).truthy = true
  · have hrem : (b.remove env w a).2 =
        (b.storage.write env (b.storage.read w).2 (deleteProp (b.storage.read w).1 a)).2 := by
      unfold Bookmarks.remove
      simp only [htruthy, Bool.not_true, Bool.false_eq_true, if_false]
      split <;> simp_all
    rw [hrem]
    have hcases := persisted_write_cases b env (b.storage.read w).2
      (deleteProp (b.storage.read w).1 a)
    rw [persisted_read] at hcases
    rcases hcases with h | h | h
    · exact Or.inr (Or.inr h)
    · exact Or.inl h
    · exact Or.inr (Or.inl h)
  · left
    have hf : (getProp (b.storage.read w).1 a).truthy = false := by simpa using htruthy
    have hrem : (b.remove env w a).2 = (b.storage.read w).2 := by
      simp [Bookmarks.remove, hf]
    rw [hrem]
    exact persisted_read b w

/-! ## The lines of the table -/

theorem intercalate_go_data (sep : String) (l : List String) (acc : String) :
    (String.intercalate.go acc sep l).data
      = acc.data ++ l.foldr (fun x r => sep.data ++ x.data ++ r) [] := by
  induction l generalizing acc with
  | nil => simp [String.intercalate.go]
  | cons a rest ih =>
    rw [String.intercalate.go, ih]
    simp [String.data_append, List.append_assoc]

theorem splitAtNewlines_line (a : List Char) (ha : '\n' ∉ a) : splitAtNewlines a = [a] := by
  induction a with
  | nil => rfl
  | cons c rest ih =>
    have hc : c ≠ '\n' := fun h => ha (by rw [h]; exact List.mem_cons_self _ _)
    have hrest : '\n' ∉ rest := fun h => ha (List.mem_cons_of_mem _ h)
    simp [splitAtNewlines, hc, ih hrest]

theorem splitAtNewlines_append (a r : List Char) (ha : '\n' ∉ a) :
    splitAtNewlines (a ++ '\n' :: r) = a :: splitAtNewlines r := by
  induction a with
  | nil => simp [splitAtNewlines]
  | cons c rest ih =>
    have hc : c ≠ '\n' := fun h => ha (by rw [h]; exact List.mem_cons_self _ _)
    have hrest : '\n' ∉ rest := fun h => ha (List.mem_cons_of_mem _ h)
    simp [splitAtNewlines, hc, ih hrest]

theorem splitAtNewlines_joined (a : String) (l : List String)
    (ha : '\n' ∉ a.data) (hl : ∀ x ∈ l, '\n' ∉ x.data) :
    splitAtNewlines (a.data ++ l.foldr (fun x r => '\n' :: (x.data ++ r)) [])
      = a.data :: l.map String.data := by
  induction l generalizing a with
  | nil => simpa using splitAtNewlines_line a.data ha
  | cons b rest ih =>
    have hb : '\n' ∉ b.data := hl b (List.mem_cons_self _ _)
    have hrest : ∀ x ∈ rest, '\n' ∉ x.data := fun x hx => hl x (List.mem_cons_of_mem _ hx)
    simp only [List.foldr_cons, List.map_cons]
    rw [splitAtNewlines_append _ _ ha, ih b hb hrest]

/-- The lines of lines joined by line feeds are the lines themselves. -/
theorem jsLines_intercalate (a : String) (l : List String)
    (ha : '\n' ∉ a.data) (hl : ∀ x ∈ l, '\n' ∉ x.data) :
    jsLines (String.intercalate "\n" (a :: l)) = a :: l := by
  unfold jsLines
  rw [String.intercalate, intercalate_go_data]
  have hfold : l.foldr (fun x r => "\n".data ++ x.data ++ r) []
      = l.foldr (fun x r => '\n' :: (x.data ++ r)) [] := rfl
  rw [hfold, splitAtNewlines_joined a l ha hl]
  simp only [List.map_cons, List.map_map]
  congr 1
  conv => rhs; rw [← List.map_id l]
  apply List.map_congr_left
  intro x _
  rfl

theorem jsLength_append (s t : String) : jsLength (s ++ t) = jsLength s + jsLength t := by
  simp [jsLength, String.data_append, List.map_append, List.sum_append]

theorem jsLength_replicate (n : Nat) (ch : Char) (hch : ch.val < 0x10000) :
    jsLength (String.mk (List.replicate n ch)) = n := by
  simp [jsLength, List.map_replicate, hch, List.sum_replicate]

theorem jsLength_padEnd (s : String) (n : Nat) (h : jsLength s ≤ n) :
    jsLength (padEnd s n) = n := by
  unfold padEnd
  rw [jsLength_append, jsLength_replicate _ _ (by decide)]
  omega

theorem padEnd_no_newline (s : String) (n : Nat) (h : '\n' ∉ s.data) :
    '\n' ∉ (padEnd s n).data := by
  unfold padEnd
  simp only [String.data_append, List.mem_append, List.mem_replicate, not_or]
  exact ⟨h, fun hh => absurd hh.2 (by decide)⟩

theorem strRepeat_dash (n : Nat) : strRepeat "-" n = String.mk (List.replicate n '-') := by
  apply String.ext
  unfold strRepeat
  rw [String.data_join]
  induction n with
  | zero => rfl
  | succ k ih =>
    simp only [List.replicate_succ, List.map_cons, List.flatten_cons]
    rw [ih]
    rfl

theorem mathMax_eq (l : List Nat) (m : Nat) : mathMax (l ++ [m]) = max m (l.foldl max 0) := by
  unfold mathMax
  rw [List.foldl_append, List.foldl_cons, List.foldl_nil, Nat.max_comm]

theorem longestLength_ge (cells : List String) (x : String) (hx : x ∈ cells) :
    jsLength x ≤ longestLength cells :=
  foldl_max_ge_mem _ _ _ (List.mem_map_of_mem _ hx)

theorem lookup_of_mem (c : Obj) (hnodup : (objectKeys c).Nodup) (e : String × String)
    (he : e ∈ c) : List.lookup e.1 c = some e.2 := by
  induction c with
  | nil => cases he
  | cons d rest ih =>
    obtain ⟨dk, dv⟩ := d
    simp only [objectKeys, List.map_cons, List.nodup_cons] at hnodup
    rw [lookup_cons_if]
    rcases List.mem_cons.1 he with h | h
    · rw [h]; simp
    · have hne : e.1 ≠ dk := by
        intro heq
        apply hnodup.1
        rw [← heq]
        exact List.mem_map_of_mem _ h
      rw [if_neg hne]
      exact ih hnodup.2 h

theorem valid_alias_no_newline (k : String) (h : Utils.isValidAlias k = true) :
    '\n' ∉ k.data := by
  intro hmem
  have hch := ((isValidAlias_iff_chars k).1 h).2 _ hmem
  revert hch
  unfold specAliasChar
  decide

/-- The table of a non-empty collection, line by line. -/
theorem table_lines (c : Obj) (hne : c ≠ [])
    (hnodup : (objectKeys c).Nodup)
    (hkeys : ∀ k ∈ objectKeys c, '\n' ∉ k.data)
    (hpaths : ∀ v ∈ objectValues c, '\n' ∉ v.data) :
    jsLines (Utils.formatBookmarksTable c) =
      (padEnd "ALIAS" (specAliasWidth c) ++ " | " ++ padEnd "PATH" (specPathWidth c)) ::
      String.mk (List.replicate (specAliasWidth c + 3 + specPathWidth c) '-') ::
      c.map (fun e =>
        padEnd e.1 (specAliasWidth c) ++ " | " ++ padEnd e.2 (specPathWidth c)) := by
  have hlen : ¬ (objectKeys c).length = 0 := by
    intro h0
    apply hne
    have := List.length_eq_zero.1 h0
    simpa [objectKeys] using this
  have hwa : mathMax ((objectKeys c).map jsLength ++ [jsLength "ALIAS"]) = specAliasWidth c := by
    rw [mathMax_eq]; rfl
  have hwp : mathMax ((objectValues c).map jsLength ++ [jsLength "PATH"]) = specPathWidth c := by
    rw [mathMax_eq]; rfl
  have h5 : jsLength "ALIAS" ≤ specAliasWidth c := Nat.le_max_left _ _
  have h4 : jsLength "PATH" ≤ specPathWidth c := Nat.le_max_left _ _
  have hbar : jsLength " | " = 3 := by decide
  have hheader : jsLength
      (padEnd "ALIAS" (specAliasWidth c) ++ " | " ++ padEnd "PATH" (specPathWidth c))
      = specAliasWidth c + 3 + specPathWidth c := by
    rw [jsLength_append, jsLength_append, jsLength_padEnd _ _ h5, jsLength_padEnd _ _ h4, hbar]
  have hrows : (objectKeys c).map (fun aliasName =>
        padEnd aliasName (specAliasWidth c) ++ " | " ++
          padEnd (getProp c aliasName).toTemplate (specPathWidth c))
      = c.map (fun e =>
        padEnd e.1 (specAliasWidth c) ++ " | " ++ padEnd e.2 (specPathWidth c)) := by
    unfold objectKeys
    rw [List.map_map]
    apply List.map_congr_left
    intro e he
    simp only [Function.comp]
    rw [getProp_of_lookup c e.1 e.2 (lookup_of_mem c hnodup e he)]
    rfl
  unfold Utils.formatBookmarksTable
  simp only [hlen, if_false, hwa, hwp, hheader, hrows, strRepeat_dash]
  apply jsLines_intercalate
  · simp only [String.data_append, List.mem_append, not_or]
    exact ⟨⟨padEnd_no_newline _ _ (by decide), by decide⟩, padEnd_no_newline _ _ (by decide)⟩
  · intro x hx
    rcases List.mem_cons.1 hx with h | h
    · rw [h]
      intro hmem
      have := (List.mem_replicate.1 hmem).2
      revert this
      decide
    · obtain ⟨e, he, hex⟩ := List.mem_map.1 h
      rw [← hex]
      simp only [String.data_append, List.mem_append, not_or]
      refine ⟨⟨padEnd_no_newline _ _ (hkeys _ ?_), by decide⟩,
        padEnd_no_newline _ _ (hpaths _ ?_)⟩
      · exact List.mem_map_of_mem _ he
      · exact List.mem_map_of_mem _ he

/-! ## The claims on failed writes, the invariant and the shape of the table -/

/-- C11, amended: whenever the storage write throws, the failure is reported and
not swallowed.  `create`, once its three checks have passed (valid alias,
existing path, no value found under the alias), and `remove` of an alias stored
with a non-empty path each return a result with `success = false` whose message
ends with the message of the storage error; both are total, so nothing is
thrown past the service.  The persisted collection is the same as before the
call whenever the failed write had not yet opened (and thereby emptied) the
file. -/
theorem save_failure_is_reported :
    (∀ (b : Bookmarks) (env : Env) (w : World) (p a msg : String),
      Utils.isValidAlias a = true →
      Utils.pathExists env (.str (Utils.resolvePath env p)) = true →
      (getProp (persisted b w) a).truthy = false →
      env.writeFileError b.storage.filePath
        (setProp (persisted b w) a (Utils.resolvePath env p)) = some msg →
      (b.create env w p a).1 = Result.failure ("Failed to save bookmark: " ++ msg) ∧
      (b.create env w p a).1.success = false ∧
      (∃ m, (b.create env w p a).1.message = some m ∧ includes m msg) ∧
      (env.failedWriteTruncates b.storage.filePath
          (setProp (persisted b w) a (Utils.resolvePath env p)) = false →
        persisted b (b.create env w p a).2 = persisted b w)) ∧
    (∀ (b : Bookmarks) (env : Env) (w : World) (a q msg : String),
      List.lookup a (persisted b w) = some q →
      q ≠ "" →
      env.writeFileError b.storage.filePath (deleteProp (persisted b w) a) = some msg →
      (b.remove env w a).1 = Result.failure ("Failed to remove bookmark: " ++ msg) ∧
      (b.remove env w a).1.success = false ∧
      (∃ m, (b.remove env w a).1.message = some m ∧ includes m msg) ∧
      (env.failedWriteTruncates b.storage.filePath (deleteProp (persisted b w) a) = false →
        persisted b (b.remove env w a).2 = persisted b w)) := by
  constructor
  · intro b env w p a msg hvalid hexists hfree hfail
    obtain ⟨hres, _, hfile⟩ := create_save_failure b env w p a msg hvalid hexists hfree hfail
    refine ⟨hres, by rw [hres]; rfl, ⟨_, by rw [hres]; rfl, includes_suffix _ _⟩, ?_⟩
    intro hkeep
    apply persisted_of_files
    rw [hfile, hkeep]
    rfl
  · intro b env w a q msg hkey hq hfail
    have hfound : (getProp (persisted b w) a).truthy = true := by
      rw [getProp_of_lookup _ _ _ hkey]
      simp [JsValue.truthy, hq]
    obtain ⟨hres, _, hfile⟩ := remove_save_failure b env w a msg hfound hfail
    refine ⟨hres, by rw [hres]; rfl, ⟨_, by rw [hres]; rfl, includes_suffix _ _⟩, ?_⟩
    intro hkeep
    apply persisted_of_files
    rw [hfile, hkeep]
    rfl

/-- C11, witness: the bookmarks file holds `work -> /tmp/dir` and cannot be
opened for writing; `create("/tmp/dir2", "docs")` and `remove("work")` both
report the permission error and the collection stays as it was. -/
theorem save_failure_is_reported_witness :
    ((demoBookmarks.create readOnlyEnv (demoWorld [("work", "/tmp/dir")]) "/tmp/dir2" "docs").1
        = Result.failure ("Failed to save bookmark: " ++ "EACCES: permission denied") ∧
      persisted demoBookmarks
        (demoBookmarks.create readOnlyEnv (demoWorld [("work", "/tmp/dir")]) "/tmp/dir2" "docs").2
        = persisted demoBookmarks (demoWorld [("work", "/tmp/dir")])) ∧
    ((demoBookmarks.remove readOnlyEnv (demoWorld [("work", "/tmp/dir")]) "work").1
        = Result.failure ("Failed to remove bookmark: " ++ "EACCES: permission denied") ∧
      persisted demoBookmarks
        (demoBookmarks.remove readOnlyEnv (demoWorld [("work", "/tmp/dir")]) "work").2
        = persisted demoBookmarks (demoWorld [("work", "/tmp/dir")])) :=
  ⟨⟨(save_failure_is_reported.1 demoBookmarks readOnlyEnv (demoWorld [("work", "/tmp/dir")])
        "/tmp/dir2" "docs" "EACCES: permission denied"
        (by decide) (by decide) (by decide) (by decide)).1,
    (save_failure_is_reported.1 demoBookmarks readOnlyEnv (demoWorld [("work", "/tmp/dir")])
        "/tmp/dir2" "docs" "EACCES: permission denied"
        (by decide) (by decide) (by decide) (by decide)).2.2.2 (by decide)⟩,
   ⟨(save_failure_is_reported.2 demoBookmarks readOnlyEnv (demoWorld [("work", "/tmp/dir")])
        "work" "/tmp/dir" "EACCES: permission denied"
        (by decide) (by decide) (by decide)).1,
    (save_failure_is_reported.2 demoBookmarks readOnlyEnv (demoWorld [("work", "/tmp/dir")])
        "work" "/tmp/dir" "EACCES: permission denied"
        (by decide) (by decide) (by decide)).2.2.2 (by decide)⟩⟩

/-- C11, counterexample: the bookmarks file holds `work -> /tmp/dir` and the
disk is full, so the write opens the file, which empties it, and then throws.
`remove("work")` and `create("/tmp/dir2", "docs")` report the failure, but
the file no longer parses and the persisted collection read afterwards is
empty, not the collection it was before the call. -/
theorem truncating_write_failure_loses_collection :
    persisted demoBookmarks (demoWorld [("work", "/tmp/dir")]) = [("work", "/tmp/dir")] ∧
    (demoBookmarks.remove diskFullEnv (demoWorld [("work", "/tmp/dir")]) "work").1
      = Result.failure "Failed to remove bookmark: ENOSPC: no space left on device, write" ∧
    persisted demoBookmarks
      (demoBookmarks.remove diskFullEnv (demoWorld [("work", "/tmp/dir")]) "work").2 = [] ∧
    (demoBookmarks.create diskFullEnv (demoWorld [("work", "/tmp/dir")]) "/tmp/dir2" "docs").1
      = Result.failure "Failed to save bookmark: ENOSPC: no space left on device, write" ∧
    persisted demoBookmarks
      (demoBookmarks.create diskFullEnv (demoWorld [("work", "/tmp/dir")]) "/tmp/dir2" "docs").2
      = [] := by
  decide

theorem aliasInvariant_nil : aliasInvariant [] := by
  intro k hk
  cases hk

/-- C12: the invariant on aliases is preserved by every service operation.  If
every key of the persisted collection is non-empty and made only of ASCII
letters, digits, underscores and hyphens before a call, then the same holds of
the persisted collection after `create`, `get`, `remove` and `list`, for all
arguments and whatever the outcome (refusal, success, or a failed write). -/
theorem alias_invariant_preserved (b : Bookmarks) (env : Env) (w : World)
    (hinv : aliasInvariant (persisted b w)) :
    (∀ p a : String, aliasInvariant (persisted b (b.create env w p a).2)) ∧
    (∀ a : String, aliasInvariant (persisted b (b.get env w a).2)) ∧
    (∀ a : String, aliasInvariant (persisted b (b.remove env w a).2)) ∧
    aliasInvariant (persisted b (b.list w).2) := by
  refine ⟨?_, ?_, ?_, ?_⟩
  · intro p a
    rcases create_persisted_cases b env w p a with h | h | ⟨hvalid, h⟩
    · rw [h]; exact hinv
    · rw [h]; exact aliasInvariant_nil
    · rw [h]
      intro k hk
      rcases keys_setProp _ _ _ _ hk with hka | hkc
      · rw [hka]
        exact (isValidAlias_iff_chars a).1 hvalid
      · exact hinv k hkc
  · intro a
    rw [(get_no_write b env w a).2.2]
    exact hinv
  · intro a
    rcases remove_persisted_cases b env w a with h | h | h
    · rw [h]; exact hinv
    · rw [h]; exact aliasInvariant_nil
    · rw [h]
      intro k hk
      exact hinv k (keys_deleteProp _ _ _ hk)
  · show aliasInvariant (persisted b (b.storage.read w).2)
    rw [persisted_read]
    exact hinv

/-- C12, witness: the collection `work -> /tmp/dir` satisfies the invariant,
and so do the collections left by creating `docs`, by looking up and removing
`work`, and by listing. -/
theorem alias_invariant_preserved_witness :
    aliasInvariant (persisted demoBookmarks (demoWorld [("work", "/tmp/dir")])) ∧
    aliasInvariant (persisted demoBookmarks
      (demoBookmarks.create demoEnv (demoWorld [("work", "/tmp/dir")]) "/tmp/dir2" "docs").2) ∧
    aliasInvariant (persisted demoBookmarks
      (demoBookmarks.get demoEnv (demoWorld [("work", "/tmp/dir")]) "work").2) ∧
    aliasInvariant (persisted demoBookmarks
      (demoBookmarks.remove demoEnv (demoWorld [("work", "/tmp/dir")]) "work").2) ∧
    aliasInvariant (persisted demoBookmarks
      (demoBookmarks.list (demoWorld [("work", "/tmp/dir")])).2) := by
  have hinv : aliasInvariant (persisted demoBookmarks (demoWorld [("work", "/tmp/dir")])) := by
    have hp : persisted demoBookmarks (demoWorld [("work", "/tmp/dir")])
        = [("work", "/tmp/dir")] := by decide
    rw [hp]
    intro k hk
    have hk2 : k = "work" := by simpa [objectKeys] using hk
    rw [hk2]
    exact (isValidAlias_iff_chars "work").1 (by decide)
  have h := alias_invariant_preserved demoBookmarks demoEnv (demoWorld [("work", "/tmp/dir")]) hinv
  exact ⟨hinv, h.1 "/tmp/dir2" "docs", h.2.1 "work", h.2.2.1 "work", h.2.2.2⟩

/-- C13: `formatBookmarksTable` returns exactly `No bookmarks found.` for the
empty collection.  For a non-empty collection of `n` entries (aliases unique
and valid, as the data model has them, and paths without a line feed) it
returns `n + 2` lines: the header, the separator made of hyphens only, and one
row per entry in key order; every line has the length
`max(5, longest alias length) + 3 + max(4, longest path length)`. -/
theorem formatBookmarksTable_shape (c : Obj)
    (hnodup : (objectKeys c).Nodup)
    (hkeys : ∀ k ∈ objectKeys c, Utils.isValidAlias k = true)
    (hpaths : ∀ v ∈ objectValues c, '\n' ∉ v.data) :
    Utils.formatBookmarksTable [] = "No bookmarks found." ∧
    (c ≠ [] →
      jsLines (Utils.formatBookmarksTable c) =
        (padEnd "ALIAS" (specAliasWidth c) ++ " | " ++ padEnd "PATH" (specPathWidth c)) ::
        String.mk (List.replicate (specAliasWidth c + 3 + specPathWidth c) '-') ::
        c.map (fun e =>
          padEnd e.1 (specAliasWidth c) ++ " | " ++ padEnd e.2 (specPathWidth c)) ∧
      (jsLines (Utils.formatBookmarksTable c)).length = c.length + 2 ∧
      ∀ line ∈ jsLines (Utils.formatBookmarksTable c),
        jsLength line = specAliasWidth c + 3 + specPathWidth c) := by
  refine ⟨rfl, fun hne => ?_⟩
  have hlines := table_lines c hne hnodup
    (fun k hk => valid_alias_no_newline k (hkeys k hk)) hpaths
  have h5 : jsLength "ALIAS" ≤ specAliasWidth c := Nat.le_max_left _ _
  have h4 : jsLength "PATH" ≤ specPathWidth c := Nat.le_max_left _ _
  have hbar : jsLength " | " = 3 := by decide
  refine ⟨hlines, ?_, ?_⟩
  · rw [hlines]
    simp
  · rw [hlines]
    intro line hline
    rcases List.mem_cons.1 hline with h | h
    · rw [h, jsLength_append, jsLength_append, jsLength_padEnd _ _ h5,
        jsLength_padEnd _ _ h4, hbar]
    · rcases List.mem_cons.1 h with h2 | h2
      · rw [h2]
        exact jsLength_replicate _ _ (by decide)
      · obtain ⟨e, he, hex⟩ := List.mem_map.1 h2
        have hk : jsLength e.1 ≤ specAliasWidth c :=
          Nat.le_trans (longestLength_ge _ _ (List.mem_map_of_mem Prod.fst he))
            (Nat.le_max_right _ _)
        have hv : jsLength e.2 ≤ specPathWidth c :=
          Nat.le_trans (longestLength_ge _ _ (List.mem_map_of_mem Prod.snd he))
            (Nat.le_max_right _ _)
        rw [← hex, jsLength_append, jsLength_append, jsLength_padEnd _ _ hk,
          jsLength_padEnd _ _ hv, hbar]

/-- C13, witness: the table of the two bookmarks `WORK -> /tmp/dir` and
`docs -> /tmp/dir2` has four lines of seventeen characters each. -/
theorem formatBookmarksTable_shape_witness :
    (objectKeys [("WORK", "/tmp/dir"), ("docs", "/tmp/dir2")]).Nodup ∧
    (∀ k ∈ objectKeys [("WORK", "/tmp/dir"), ("docs", "/tmp/dir2")],
      Utils.isValidAlias k = true) ∧
    (∀ v ∈ objectValues [("WORK", "/tmp/dir"), ("docs", "/tmp/dir2")], '\n' ∉ v.data) ∧
    jsLines (Utils.formatBookmarksTable [("WORK", "/tmp/dir"), ("docs", "/tmp/dir2")]) =
      ["ALIAS | PATH     ", "-----------------", "WORK  | /tmp/dir ", "docs  | /tmp/dir2"] ∧
    ∀ line ∈ jsLines (Utils.formatBookmarksTable [("WORK", "/tmp/dir"), ("docs", "/tmp/dir2")]),
      jsLength line = 17 :=
  ⟨by decide, by decide, by decide,
   ((formatBookmarksTable_shape [("WORK", "/tmp/dir"), ("docs", "/tmp/dir2")]
      (by decide) (by decide) (by decide)).2 (by decide)).1.trans (by decide),
   ((formatBookmarksTable_shape [("WORK", "/tmp/dir"), ("docs", "/tmp/dir2")]
      (by decide) (by decide) (by decide)).2 (by decide)).2.2⟩

end Jump
